import Mathlib

/-!
Shallow embedding of `src/app.py` (AI-Powered Career Advisor), covering the
components with internal logic: the gap calculator `skill_gap_analysis_df`,
the skill aggregator `get_skills_for_user` / `fetch_dynamic_skills`, the chat
command handler `parse_special_commands`, the news fetcher
`fetch_industry_news`, and the chat submission flow of `show_mentor_chat`.

Python dictionaries are embedded as association lists in insertion order
(Python 3.7+ dict iteration order is insertion order).  External network
calls (the completion service, the news service) are embedded as explicit
parameters carrying the response or the raised error (`Except`).
-/

namespace CareerAdvisor

/-- A per-skill levels dictionary, as read by `skill_gap_analysis_df` via
`levels.get('current', 0)` and `levels.get('target', 0)`.  A `none` field
embeds an absent dictionary key. -/
structure Levels where
  current : Option Int
  target : Option Int
deriving DecidableEq, Repr

/-- One row of the data frame built by `skill_gap_analysis_df`
(keys 'Skill', 'Current Level', 'Target Level', 'Gap'). -/
structure GapRow where
  skill : String
  current_level : Int
  target_level : Int
  gap : Int
deriving DecidableEq, Repr

/-- `skill_gap_analysis_df` (src/app.py lines 99-105): for each dict entry,
`current = levels.get('current', 0)`, `target = levels.get('target', 0)`,
and the appended row carries `gap = target - current`.  The pandas
`DataFrame` is embedded as the ordered list of its rows. -/
def skill_gap_analysis_df (skills_dict : List (String × Levels)) : List GapRow :=
  skills_dict.map (fun p =>
    let current := p.2.current.getD 0
    let target := p.2.target.getD 0
    { skill := p.1, current_level := current, target_level := target,
      gap := target - current })

/-- Python `d.get(key, [])` on a string-keyed dict of skill lists. -/
def dict_get_list (d : List (String × List String)) (k : String) : List String :=
  match d with
  | [] => []
  | p :: rest => if p.1 = k then p.2 else dict_get_list rest k

/-- `skills_by_profession` (src/app.py lines 59-64). -/
def skills_by_profession : List (String × List String) :=
  [("Data Analyst", ["Python", "SQL", "Data Visualization", "Statistics"]),
   ("Software Engineer", ["Python", "Algorithms", "Data Structures", "System Design"]),
   ("Project Manager", ["Leadership", "Project Planning", "Risk Management", "Agile"]),
   ("Student", ["Time Management", "Research", "Presentation Skills"])]

/-- `skills_by_industry` (src/app.py lines 66-73). -/
def skills_by_industry : List (String × List String) :=
  [("IT", ["Cloud Computing", "Machine Learning", "Python"]),
   ("Healthcare", ["Medical Terminology", "Patient Care", "Data Compliance"]),
   ("Finance", ["Financial Modeling", "Risk Analysis", "Excel"]),
   ("Education", ["Curriculum Planning", "Teaching Skills", "Assessment Design"]),
   ("Engineering", ["CAD", "Mathematics", "Project Management"]),
   ("Others", [])]

/-- Python `\s` character class restricted to ASCII, as used by `\s*` in the
command patterns and by `str.strip()`. -/
def pyIsSpace (c : Char) : Bool :=
  c = ' ' || c = '\t' || c = '\n' || c = '\r' || c = '\x0b' || c = '\x0c'

/-- Python `str.strip()` (default whitespace stripping, both ends). -/
def pyStrip (s : List Char) : List Char :=
  ((s.dropWhile pyIsSpace).reverse.dropWhile pyIsSpace).reverse

/-- Boolean list-prefix test (needle against haystack). -/
def isPrefixList : List Char → List Char → Bool
  | [], _ => true
  | _ :: _, [] => false
  | a :: as, b :: bs => a == b && isPrefixList as bs

/-- `re.search` for a literal needle under `re.IGNORECASE`: scan left to
right for the first position where the lowercase needle matches the
lowercased haystack; return the (original-case) suffix right after the
matched literal, or `none` when there is no match. -/
def searchSub (needle : List Char) : List Char → Option (List Char)
  | [] => if isPrefixList needle [] then some [] else none
  | c :: rest =>
      if isPrefixList needle ((c :: rest).map Char.toLower) then
        some ((c :: rest).drop needle.length)
      else searchSub needle rest

/-- Capture group `(.*)` taken after the greedy `\s*` that follows the
literal: skip the maximal whitespace run, then take up to the next newline
(`.` does not match newline without `re.DOTALL`). -/
def captureGroup (suf : List Char) : List Char :=
  (suf.dropWhile pyIsSpace).takeWhile (fun c => c != '\n')

/-- Python `str.capitalize()`: first character uppercased, rest lowercased. -/
def pyCapitalize (s : String) : String :=
  match s.data with
  | [] => ""
  | c :: rest => (c.toUpper :: rest.map Char.toLower).asString

/-- `key.replace('_', ' ').capitalize()` from `parse_special_commands`. -/
def humanizeKey (key : String) : String :=
  pyCapitalize ((key.data.map (fun c => if c = '_' then ' ' else c)).asString)

/-- Python dict assignment `d[k] = v`: overwrite in place when the key
exists, else append (insertion order preserved). -/
def dictSet : List (String × String) → String → String → List (String × String)
  | [], k, v => [(k, v)]
  | p :: rest, k, v => if p.1 = k then (k, v) :: rest else p :: dictSet rest k v

/-- Python dict lookup `d.get(k)` (`none` when the key is absent). -/
def dictGet : List (String × String) → String → Option String
  | [], _ => none
  | p :: rest, k => if p.1 = k then some p.2 else dictGet rest k

/-- The body of the `if match:` branch of `parse_special_commands`
(src/app.py lines 150-155): strip the captured value; on an empty value
return the "value missing" message without touching context, otherwise
write the trimmed value to `st.session_state.context[key]` and return the
confirmation.  The result pairs the returned string with the new context. -/
def handleMatch (ctx : List (String × String)) (key : String) (suf : List Char) :
    Option String × List (String × String) :=
  let value := pyStrip (captureGroup suf)
  if value = [] then
    (some (humanizeKey key ++ " value missing. Please provide a value."), ctx)
  else
    (some (humanizeKey key ++ " recorded: " ++ value.asString ++ "."),
     dictSet ctx key value.asString)

/-- `parse_special_commands` (src/app.py lines 143-156): the pattern dict
iterates in insertion order — `"timeline"` (pattern `timeline:\s*(.*)`) is
checked before `"prep_level"` (pattern `prep level:\s*(.*)`), both under
`re.IGNORECASE`; the first match is handled and the loop returns; with no
match the function returns `None` and the context is untouched. -/
def parse_special_commands (ctx : List (String × String)) (user_input : String) :
    Option String × List (String × String) :=
  match searchSub "timeline:".data user_input.data with
  | some suf => handleMatch ctx "timeline" suf
  | none =>
    match searchSub "prep level:".data user_input.data with
    | some suf => handleMatch ctx "prep_level" suf
    | none => (none, ctx)

/-- `s.strip("-â€¢ ")` from `fetch_dynamic_skills`: the characters stripped
from both ends of each response line (a dash, the mojibake bytes of a
bullet, and a space). -/
def bulletChars : List Char := ['-', 'â', '€', '¢', ' ']

/-- Python `str.strip(chars)`: remove characters of the set from both ends. -/
def pyStripChars (chars : List Char) (s : List Char) : List Char :=
  ((s.dropWhile (fun c => chars.contains c)).reverse.dropWhile
      (fun c => chars.contains c)).reverse

/-- Python `content.split("\n")`: split on each newline, keeping empty
segments (`"".split("\n") == [""]`). -/
def splitLines : List Char → List (List Char)
  | [] => [[]]
  | c :: rest =>
      match splitLines rest with
      | [] => [[]]
      | l :: ls => if c = '\n' then [] :: l :: ls else (c :: l) :: ls

/-- The response post-processing of `fetch_dynamic_skills` (src/app.py line
89): split the completion text on newlines, keep the lines that are not
whitespace-only, and strip bullet characters from each kept line. -/
def parse_ai_skills (content : String) : List String :=
  ((splitLines content.data).filter (fun s => !(pyStrip s).isEmpty)).map
    (fun s => (pyStripChars bulletChars s).asString)

/-- `fetch_dynamic_skills` (src/app.py lines 78-89): forwards the profile to
the completion service and post-processes the response text.  The external
call is embedded as an `Except` argument; the function contains no
try/except, so an error raised by the call propagates unchanged. -/
def fetch_dynamic_skills (ai_call : Except String String) :
    Except String (List String) :=
  match ai_call with
  | Except.error e => Except.error e
  | Except.ok content => Except.ok (parse_ai_skills content)

/-- The `industry_skills.extend(...)` loop of `get_skills_for_user`
(src/app.py lines 93-95): concatenate the industry-table skills of each
selected industry, in order. -/
def industrySkillsOf : List String → List String
  | [] => []
  | i :: rest => dict_get_list skills_by_industry i ++ industrySkillsOf rest

/-- `get_skills_for_user` (src/app.py lines 91-97): profession-table lookup
(default `[]`), industry-table lookups, AI suggestions, then
`list(set(...))`.  The Python `set` has no specified order, so
deduplication is embedded as `List.dedup`; theorems about the result only
use set-level facts (membership and `Nodup`).  No try/except: an error from
`fetch_dynamic_skills` propagates unchanged. -/
def get_skills_for_user (profession : String) (career_interests : List String)
    (ai_call : Except String String) : Except String (List String) :=
  let prof_skills := dict_get_list skills_by_profession profession
  let industry_skills := industrySkillsOf career_interests
  match fetch_dynamic_skills ai_call with
  | Except.error e => Except.error e
  | Except.ok ai_suggested =>
      Except.ok (List.dedup (prof_skills ++ industry_skills ++ ai_suggested))

/-- One article of the news-service response.  A `none` field embeds a
missing 'title' or 'url' key, whose subscript access would raise. -/
structure Article where
  title : Option String
  url : Option String
deriving DecidableEq, Repr

/-- The outcome of the news-service request as seen inside the `try` block
of `fetch_industry_news`: either some raised transport/HTTP/parse error, or
a parsed list of articles. -/
inductive NewsResponse where
  | failure
  | success (articles : List Article)
deriving DecidableEq, Repr

/-- `[(a['title'], a['url']) for a in articles]` with `KeyError`
propagation: extracting a missing key raises (embedded as `Except.error`). -/
def extractArticles : List Article → Except Unit (List (String × String))
  | [] => Except.ok []
  | a :: rest =>
    match a.title, a.url with
    | some t, some u => (extractArticles rest).map (fun l => (t, u) :: l)
    | _, _ => Except.error ()

/-- The body of the `try` block of `fetch_industry_news` (src/app.py lines
114-117): raise on a transport/HTTP error, else reduce the articles to
(title, url) pairs. -/
def fetchNewsBody : NewsResponse → Except Unit (List (String × String))
  | NewsResponse.failure => Except.error ()
  | NewsResponse.success arts => extractArticles arts

/-- `fetch_industry_news` (src/app.py lines 110-119): the bare
`except: return []` turns every raised error into an empty list, so the
function is total and never raises to its caller. -/
def fetch_industry_news (resp : NewsResponse) : List (String × String) :=
  match fetchNewsBody resp with
  | Except.ok l => l
  | Except.error _ => []

/-- One chat turn as appended to `st.session_state.chat_history`. -/
structure ChatTurn where
  role : String
  content : String
deriving DecidableEq, Repr

/-- The chat-submission flow of `show_mentor_chat` (src/app.py lines
229-239).  `st.chat_input` yields a falsy value (embedded as `""`) when no
question was submitted, in which case nothing changes.  Otherwise: append
the user turn, run `parse_special_commands`, and when it returns the `None`
sentinel call the mentor model — the external call is embedded as an
`Except` argument, and its error is caught at the call site and converted
into the string "Sorry, there was an error: {e}"; finally append the
assistant turn.  Returns the new chat history and the new context. -/
def show_mentor_chat_submit (history : List ChatTurn) (ctx : List (String × String))
    (user_input : String) (ai_call : Except String String) :
    List ChatTurn × List (String × String) :=
  if user_input = "" then (history, ctx)
  else
    let history1 := history ++ [⟨"user", user_input⟩]
    let parsed := parse_special_commands ctx user_input
    let response : String :=
      match parsed.1 with
      | some r => r
      | none =>
        match ai_call with
        | Except.ok r => r
        | Except.error e => "Sorry, there was an error: " ++ e
    (history1 ++ [⟨"assistant", response⟩], parsed.2)

end CareerAdvisor

namespace CareerAdvisor

/-- Row-by-row description of `skill_gap_analysis_df`. -/
theorem gap_df_getElem (d : List (String × Levels)) (i : Nat) :
    (skill_gap_analysis_df d)[i]? = (d[i]?).map (fun p =>
      { skill := p.1, current_level := p.2.current.getD 0,
        target_level := p.2.target.getD 0,
        gap := p.2.target.getD 0 - p.2.current.getD 0 }) := by
  simp [skill_gap_analysis_df]

/-- C1: for every input mapping skill -> levels, `skill_gap_analysis_df`
returns one row per input entry, in the input's iteration order, and each
row's gap equals target minus current exactly (integer subtraction, not
clamped, possibly negative). -/
theorem c1_gap_calculator_exact (d : List (String × Levels)) :
    (skill_gap_analysis_df d).length = d.length ∧
    (∀ r ∈ skill_gap_analysis_df d, r.gap = r.target_level - r.current_level) ∧
    (∀ i : Nat, (skill_gap_analysis_df d)[i]? = (d[i]?).map (fun p =>
      { skill := p.1, current_level := p.2.current.getD 0,
        target_level := p.2.target.getD 0,
        gap := p.2.target.getD 0 - p.2.current.getD 0 })) := by
  refine ⟨by simp [skill_gap_analysis_df], ?_, fun i => gap_df_getElem d i⟩
  intro r hr
  simp only [skill_gap_analysis_df, List.mem_map] at hr
  obtain ⟨p, -, rfl⟩ := hr
  rfl

/-- Witness for C1 at a concrete input whose second entry has a negative gap
(current 5, target 2): the gap is reported as target minus current, unclamped. -/
theorem c1_gap_calculator_exact_witness :
    (GapRow.mk "B" 5 2 (-3)).gap =
      (GapRow.mk "B" 5 2 (-3)).target_level - (GapRow.mk "B" 5 2 (-3)).current_level :=
  (c1_gap_calculator_exact
      [("A", Levels.mk (some 1) (some 4)), ("B", Levels.mk (some 5) (some 2))]).2.1
    (GapRow.mk "B" 5 2 (-3)) (by decide)

/-- C10: `skill_gap_analysis_df` is total on level records with missing keys:
a missing 'current' or 'target' key is read as 0 via `dict.get(key, 0)`, so an
entry with an empty levels mapping yields the row (skill, 0, 0, 0) rather
than an error. -/
theorem c10_gap_calculator_missing_keys_default_zero (d : List (String × Levels))
    (i : Nat) (s : String) (l : Levels) (h : d[i]? = some (s, l)) :
    (l.current = none → (skill_gap_analysis_df d)[i]? =
        some ⟨s, 0, l.target.getD 0, l.target.getD 0 - 0⟩) ∧
    (l.target = none → (skill_gap_analysis_df d)[i]? =
        some ⟨s, l.current.getD 0, 0, 0 - l.current.getD 0⟩) ∧
    (l = ⟨none, none⟩ → (skill_gap_analysis_df d)[i]? = some ⟨s, 0, 0, 0⟩) := by
  rw [gap_df_getElem, h]
  refine ⟨fun hc => ?_, fun ht => ?_, fun he => ?_⟩
  · simp [hc]
  · simp [ht]
  · simp [he]

/-- Witness for C10: a skill with an empty levels mapping yields the row
(skill, 0, 0, 0). -/
theorem c10_gap_calculator_missing_keys_default_zero_witness :
    (skill_gap_analysis_df [("X", Levels.mk none none)])[0]? =
      some ⟨"X", 0, 0, 0⟩ :=
  (c10_gap_calculator_missing_keys_default_zero [("X", Levels.mk none none)] 0 "X"
      (Levels.mk none none) (by decide)).2.2 rfl

/-- Looking up the key that was just assigned returns the assigned value. -/
theorem dictGet_dictSet_self (d : List (String × String)) (k v : String) :
    dictGet (dictSet d k v) k = some v := by
  induction d with
  | nil => simp [dictSet, dictGet]
  | cons p rest ih =>
    by_cases h : p.1 = k
    · simp [dictSet, dictGet, h]
    · simp [dictSet, dictGet, h, ih]

/-- Assigning key `k` leaves every other key's lookup unchanged. -/
theorem dictGet_dictSet_ne (d : List (String × String)) (k k2 v : String)
    (h : k ≠ k2) : dictGet (dictSet d k v) k2 = dictGet d k2 := by
  induction d with
  | nil => simp [dictSet, dictGet, h]
  | cons p rest ih =>
    by_cases hp : p.1 = k
    · simp [dictSet, dictGet, hp, h]
    · simp [dictSet, dictGet, hp, ih]

/-- C3: `parse_special_commands` on "timeline: June 2026" records the
timeline in context and returns the confirmation "Timeline recorded: June
2026."; on "Prep Level: advanced" (case-insensitive match) it records
prep_level = "advanced"; on an input matching neither pattern it returns
the `None` sentinel and leaves the context unchanged. -/
theorem c3_command_directive_examples :
    (∀ ctx, (parse_special_commands ctx "timeline: June 2026").1 =
        some "Timeline recorded: June 2026." ∧
      dictGet (parse_special_commands ctx "timeline: June 2026").2 "timeline" =
        some "June 2026") ∧
    (∀ ctx, (parse_special_commands ctx "Prep Level: advanced").1 =
        some "Prep level recorded: advanced." ∧
      dictGet (parse_special_commands ctx "Prep Level: advanced").2 "prep_level" =
        some "advanced") ∧
    (∀ ctx (s : String), searchSub "timeline:".data s.data = none →
      searchSub "prep level:".data s.data = none →
      parse_special_commands ctx s = (none, ctx)) := by
  refine ⟨fun ctx => ⟨rfl, ?_⟩, fun ctx => ⟨rfl, ?_⟩, fun ctx s h1 h2 => ?_⟩
  · exact dictGet_dictSet_self ctx "timeline" "June 2026"
  · exact dictGet_dictSet_self ctx "prep_level" "advanced"
  · simp [parse_special_commands, h1, h2]

/-- Witness for C3: the input "hello" matches neither pattern, so the parse
returns the sentinel and the context is unchanged. -/
theorem c3_command_directive_examples_witness :
    parse_special_commands [] "hello" = (none, []) :=
  c3_command_directive_examples.2.2 [] "hello" (by decide) (by decide)

/-- C4: whenever a matched directive captures an empty (after stripping)
value, `parse_special_commands` returns the "value missing" message and
does not write to the context; whenever the captured value is non-empty,
the value written to the context is the stripped value. -/
theorem c4_value_missing_vs_trimmed_write (ctx : List (String × String)) (s : String) :
    (∀ suf, searchSub "timeline:".data s.data = some suf →
      (pyStrip (captureGroup suf) = [] →
        parse_special_commands ctx s =
          (some "Timeline value missing. Please provide a value.", ctx)) ∧
      (pyStrip (captureGroup suf) ≠ [] →
        parse_special_commands ctx s =
          (some ("Timeline recorded: " ++ (pyStrip (captureGroup suf)).asString ++ "."),
           dictSet ctx "timeline" (pyStrip (captureGroup suf)).asString))) ∧
    (searchSub "timeline:".data s.data = none →
      ∀ suf, searchSub "prep level:".data s.data = some suf →
      (pyStrip (captureGroup suf) = [] →
        parse_special_commands ctx s =
          (some "Prep level value missing. Please provide a value.", ctx)) ∧
      (pyStrip (captureGroup suf) ≠ [] →
        parse_special_commands ctx s =
          (some ("Prep level recorded: " ++ (pyStrip (captureGroup suf)).asString ++ "."),
           dictSet ctx "prep_level" (pyStrip (captureGroup suf)).asString))) := by
  constructor
  · intro suf h
    simp only [parse_special_commands, h, handleMatch]
    constructor
    · intro hv; simp [hv]; rfl
    · intro hv; simp [hv]; rfl
  · intro h1 suf h2
    simp only [parse_special_commands, h1, h2, handleMatch]
    constructor
    · intro hv; simp [hv]; rfl
    · intro hv; simp [hv]; rfl

/-- Witness for C4: "timeline:   " captures a whitespace-only value, so the
parse returns the value-missing message and leaves the context unchanged. -/
theorem c4_value_missing_vs_trimmed_write_witness :
    parse_special_commands [] "timeline:   " =
      (some "Timeline value missing. Please provide a value.", []) :=
  ((c4_value_missing_vs_trimmed_write [] "timeline:   ").1 "   ".data (by decide)).1
    (by decide)

/-- C5: when an input matches both directives, only the first key in the
fixed checking order ("timeline" before "prep_level") is honored: the result
is exactly the timeline handling, the "prep_level" context entry is
untouched, and no key other than "timeline" is written. -/
theorem c5_first_directive_wins (ctx : List (String × String)) (s : String)
    (suf suf2 : List Char)
    (h1 : searchSub "timeline:".data s.data = some suf)
    (h2 : searchSub "prep level:".data s.data = some suf2) :
    parse_special_commands ctx s = handleMatch ctx "timeline" suf ∧
    dictGet (parse_special_commands ctx s).2 "prep_level" = dictGet ctx "prep_level" ∧
    (∀ k, k ≠ "timeline" → dictGet (parse_special_commands ctx s).2 k = dictGet ctx k) := by
  have hp : parse_special_commands ctx s = handleMatch ctx "timeline" suf := by
    simp [parse_special_commands, h1]
  have hk : ∀ k, k ≠ "timeline" →
      dictGet (handleMatch ctx "timeline" suf).2 k = dictGet ctx k := by
    intro k hkne
    simp only [handleMatch]
    by_cases hv : pyStrip (captureGroup suf) = []
    · simp [hv]
    · simp [hv, dictGet_dictSet_ne ctx "timeline" k _ (Ne.symm hkne)]
  exact ⟨hp, by rw [hp]; exact hk "prep_level" (by decide),
    fun k hkne => by rw [hp]; exact hk k hkne⟩

/-- Witness for C5: "timeline: x prep level: y" matches both patterns and is
handled entirely as a timeline directive. -/
theorem c5_first_directive_wins_witness :
    parse_special_commands [] "timeline: x prep level: y" =
      handleMatch [] "timeline" " x prep level: y".data :=
  (c5_first_directive_wins [] "timeline: x prep level: y" " x prep level: y".data
      " y".data (by decide) (by decide)).1

/-- Membership in the concatenated industry skills is membership in the
table entry of one of the selected industries. -/
theorem mem_industrySkillsOf (x : String) (l : List String) :
    x ∈ industrySkillsOf l ↔
      ∃ i, i ∈ l ∧ x ∈ dict_get_list skills_by_industry i := by
  induction l with
  | nil => simp [industrySkillsOf]
  | cons i rest ih =>
    simp only [industrySkillsOf, List.mem_append, ih, List.mem_cons]
    constructor
    · rintro (hx | ⟨j, hj, hxj⟩)
      · exact ⟨i, Or.inl rfl, hx⟩
      · exact ⟨j, Or.inr hj, hxj⟩
    · rintro ⟨j, hj | hj, hxj⟩
      · exact Or.inl (hj ▸ hxj)
      · exact Or.inr ⟨j, hj, hxj⟩

/-- C2: the skill aggregator's output is the deduplicated union (exact
string equality) of the profession-table skills, the industry-table skills
of each selected industry, and the parsed AI suggestions; concretely, for
profession "Data Analyst" and industries ["IT"] with an empty AI response,
the result is exactly the 6 unique static skills, 'Python' counted once. -/
theorem c2_skill_aggregator_union :
    (∀ profession interests content skills,
      get_skills_for_user profession interests (Except.ok content) =
        Except.ok skills →
      skills.Nodup ∧
      ∀ x, x ∈ skills ↔
        (x ∈ dict_get_list skills_by_profession profession ∨
         (∃ i, i ∈ interests ∧ x ∈ dict_get_list skills_by_industry i) ∨
         x ∈ parse_ai_skills content)) ∧
    (∃ l, get_skills_for_user "Data Analyst" ["IT"] (Except.ok "") =
        Except.ok l ∧
      l.length = 6 ∧
      l.toFinset = {"Python", "SQL", "Data Visualization", "Statistics",
        "Cloud Computing", "Machine Learning"}) := by
  constructor
  · intro profession interests content skills h
    simp only [get_skills_for_user, fetch_dynamic_skills, Except.ok.injEq] at h
    subst h
    refine ⟨List.nodup_dedup _, fun x => ?_⟩
    simp [List.mem_dedup, List.mem_append, mem_industrySkillsOf, or_assoc]
  · exact ⟨["SQL", "Data Visualization", "Statistics", "Cloud Computing",
      "Machine Learning", "Python"], rfl, rfl, by decide⟩

/-- Witness for C2 at profession "Student" with no industries and an empty
AI response: the aggregated list is duplicate-free. -/
theorem c2_skill_aggregator_union_witness :
    (["Time Management", "Research", "Presentation Skills"] : List String).Nodup :=
  (c2_skill_aggregator_union.1 "Student" [] ""
    ["Time Management", "Research", "Presentation Skills"] rfl).1

/-- Extracting (title, url) pairs succeeds exactly as the element-wise
reduction when every article has both keys. -/
theorem extractArticles_ok (arts : List Article)
    (h : ∀ a ∈ arts, a.title ≠ none ∧ a.url ≠ none) :
    extractArticles arts =
      Except.ok (arts.map (fun a => (a.title.getD "", a.url.getD ""))) := by
  induction arts with
  | nil => rfl
  | cons a rest ih =>
    obtain ⟨hta, hua⟩ := h a (List.mem_cons_self a rest)
    obtain ⟨t, ht⟩ := Option.ne_none_iff_exists'.mp hta
    obtain ⟨u, hu⟩ := Option.ne_none_iff_exists'.mp hua
    have ih2 := ih (fun b hb => h b (List.mem_cons_of_mem a hb))
    simp [extractArticles, ht, hu, ih2, Except.map]

/-- C6: `fetch_industry_news` reduces the response's articles to
(title, url) pairs, and on any raised transport or parse error it returns
the empty list instead of raising to its caller. -/
theorem c6_news_fetch_silent_failure (resp : NewsResponse) :
    (∀ e, fetchNewsBody resp = Except.error e → fetch_industry_news resp = []) ∧
    fetch_industry_news NewsResponse.failure = [] ∧
    (∀ arts, resp = NewsResponse.success arts →
      (∀ a ∈ arts, a.title ≠ none ∧ a.url ≠ none) →
      fetch_industry_news resp =
        arts.map (fun a => (a.title.getD "", a.url.getD ""))) := by
  refine ⟨fun e he => ?_, rfl, fun arts hr hall => ?_⟩
  · simp [fetch_industry_news, he]
  · subst hr
    simp [fetch_industry_news, fetchNewsBody, extractArticles_ok arts hall]

/-- Witness for C6: a failed request yields the empty list, and a
successful request with one well-formed article yields its pair. -/
theorem c6_news_fetch_silent_failure_witness :
    fetch_industry_news NewsResponse.failure = [] ∧
    fetch_industry_news (NewsResponse.success [⟨some "t", some "u"⟩]) =
      [("t", "u")] :=
  ⟨(c6_news_fetch_silent_failure NewsResponse.failure).1 () rfl,
   ((c6_news_fetch_silent_failure
        (NewsResponse.success [⟨some "t", some "u"⟩])).2.2
      [⟨some "t", some "u"⟩] rfl (by decide)).trans (by decide)⟩

/-- C7: when a submitted question is not a directive and the completion
call raises, the error is caught at the call site, converted into a string
embedding the error detail, appended as an assistant turn, and the chat
history grows by exactly two turns. -/
theorem c7_chat_error_caught (history : List ChatTurn) (ctx : List (String × String))
    (user_input : String) (e : String)
    (hne : user_input ≠ "")
    (hcmd : (parse_special_commands ctx user_input).1 = none) :
    (show_mentor_chat_submit history ctx user_input (Except.error e)).1 =
      history ++ [⟨"user", user_input⟩,
        ⟨"assistant", "Sorry, there was an error: " ++ e⟩] ∧
    (show_mentor_chat_submit history ctx user_input (Except.error e)).1.length =
      history.length + 2 := by
  have h1 : (show_mentor_chat_submit history ctx user_input (Except.error e)).1 =
      history ++ [⟨"user", user_input⟩,
        ⟨"assistant", "Sorry, there was an error: " ++ e⟩] := by
    simp [show_mentor_chat_submit, hne, hcmd]
  exact ⟨h1, by rw [h1]; simp⟩

/-- Witness for C7: submitting "hello" while the completion service raises
"boom" appends the user turn and an assistant turn carrying the error. -/
theorem c7_chat_error_caught_witness :
    (show_mentor_chat_submit [] [] "hello" (Except.error "boom")).1 =
      [⟨"user", "hello"⟩, ⟨"assistant", "Sorry, there was an error: boom"⟩] :=
  ((c7_chat_error_caught [] [] "hello" "boom" (by decide) (by decide)).1).trans
    (by decide)

/-- C8: the skill-suggestion path has no guard — an error raised by the
completion call propagates unchanged out of `fetch_dynamic_skills` and
`get_skills_for_user` — while the chat path catches the same error and
turns it into an assistant turn. -/
theorem c8_skill_suggestion_unguarded (e profession : String)
    (interests : List String) :
    fetch_dynamic_skills (Except.error e) = Except.error e ∧
    get_skills_for_user profession interests (Except.error e) = Except.error e ∧
    (show_mentor_chat_submit [] [] "q" (Except.error e)).1 =
      [⟨"user", "q"⟩, ⟨"assistant", "Sorry, there was an error: " ++ e⟩] :=
  ⟨rfl, rfl, rfl⟩

/-- C9: the chat flow is append-only on the chat history: the submission
step either leaves the history unchanged (no input) or appends turns at
the end; existing turns are never mutated or removed. -/
theorem c9_chat_history_append_only (history : List ChatTurn)
    (ctx : List (String × String)) (user_input : String)
    (ai_call : Except String String) :
    ∃ t, (show_mentor_chat_submit history ctx user_input ai_call).1 =
      history ++ t ∧ t.length ≤ 2 := by
  by_cases h : user_input = ""
  · exact ⟨[], by simp [show_mentor_chat_submit, h], by simp⟩
  · refine ⟨[⟨"user", user_input⟩,
      ⟨"assistant",
        match (parse_special_commands ctx user_input).1 with
        | some r => r
        | none =>
          match ai_call with
          | Except.ok r => r
          | Except.error e => "Sorry, there was an error: " ++ e⟩], ?_, by simp⟩
    simp [show_mentor_chat_submit, h]

end CareerAdvisor
